import Mathlib

/-!
Verification of the Coin-Counter pipeline (`CoinCounting.py` and `CoinCalibration.py`).

The development shallowly embeds the data-carrying parts of the two modules:

* `coinValues` — per-denomination statistics aggregation from the three
  calibration files (`CoinCounting.coinValues`);
* `chooseThreshold` — the adaptive background-polarity threshold choice
  shared by both `process` functions;
* `countingRatios` / `calibrationRatios` — the channel-ratio computations of
  counting mode (`CoinCounting.process`) and calibration mode
  (`CoinCalibration.detectCoinType`);
* `classify` — the radius/color decision cascade of `CoinCounting.process`;
* `countCoins` / `totalVal` — the per-frame tally;
* `detectCoinType` — the calibration-mode marker assignment loop.

Pixel intensities are modelled as naturals, measured quantities and the
calibrated statistics as rationals (exact arithmetic in place of Python
floats), and Python exceptions (`ZeroDivisionError` on division by zero,
`ValueError` from `math.sqrt` on a negative argument) as `Except.error`.
-/

namespace CoinCounter

/-- The four U.S. coin denominations handled by the pipeline. -/
inductive Coin
  | Dime
  | Penny
  | Nickel
  | Quarter
deriving DecidableEq

/-- The six-entry record produced by `CoinCounting.coinValues`
(`np.array([radiusAvg, rgAvg, rbAvg, standardDeviation, standardDeviationRG,
standardDeviationRB])`).  The source stores the square roots of the three
variances; here the (rational) variances are stored and the square roots are
taken by the `standardDeviation*` functions below. -/
structure CoinStats where
  radiusAvg : ℚ
  rgAvg : ℚ
  rbAvg : ℚ
  variance : ℚ
  varianceRG : ℚ
  varianceRB : ℚ
deriving DecidableEq

deriving instance DecidableEq for Except

/-- `CoinCounting.coinValues` (lines 110-174): aggregate one denomination's
three calibration files.  The inputs are the parsed non-empty lines of
`<coin>_RG.txt`, `<coin>_RB.txt` and `<coin>_Radius.txt`.  The sample count
`coinNum` is taken from the RG file alone and divides all three sums.  A zero
count raises `ZeroDivisionError` at the first mean; each `math.sqrt` of a
negative variance raises `ValueError`, in source order (RG, then RB, then
radius). -/
def coinValues (rgData rbData radiusData : List ℚ) : Except String CoinStats :=
  let coinNum := rgData.length
  if coinNum = 0 then .error "ZeroDivisionError"
  else
    let rgSum := rgData.sum
    let rgSqSum := (rgData.map fun v => v * v).sum
    let rgAvg := rgSum / (coinNum : ℚ)
    let rgSqAvg := rgSqSum / (coinNum : ℚ)
    let varianceRG := rgSqAvg - rgAvg * rgAvg
    if varianceRG < 0 then .error "ValueError"
    else
      let rbSum := rbData.sum
      let rbSqSum := (rbData.map fun v => v * v).sum
      let rbAvg := rbSum / (coinNum : ℚ)
      let rbSqAvg := rbSqSum / (coinNum : ℚ)
      let varianceRB := rbSqAvg - rbAvg * rbAvg
      if varianceRB < 0 then .error "ValueError"
      else
        let radiusSum := radiusData.sum
        let radiusSqSum := (radiusData.map fun v => v * v).sum
        let radiusAvg := radiusSum / (coinNum : ℚ)
        let radiusSqAvg := radiusSqSum / (coinNum : ℚ)
        let variance := radiusSqAvg - radiusAvg * radiusAvg
        if variance < 0 then .error "ValueError"
        else .ok ⟨radiusAvg, rgAvg, rbAvg, variance, varianceRG, varianceRB⟩

/-- The radius standard deviation `math.sqrt(variance)` stored at index 3 of
the source's array. -/
noncomputable def standardDeviation (s : CoinStats) : ℝ :=
  Real.sqrt (s.variance : ℝ)

/-- The RG-ratio standard deviation `math.sqrt(varianceRG)` stored at index 4
of the source's array. -/
noncomputable def standardDeviationRG (s : CoinStats) : ℝ :=
  Real.sqrt (s.varianceRG : ℝ)

/-- The RB-ratio standard deviation `math.sqrt(varianceRB)` stored at index 5
of the source's array. -/
noncomputable def standardDeviationRB (s : CoinStats) : ℝ :=
  Real.sqrt (s.varianceRB : ℝ)

/-- C5: over a dataset of `n ≥ 1` identical rows `(radius, ratioRG, ratioRB)`,
`coinValues` returns statistics whose three means are exactly the row values
and whose three standard deviations are all `0`. -/
theorem coinValues_uniform_rows (n : ℕ) (r rg rb : ℚ) (hn : 1 ≤ n) :
    coinValues (List.replicate n rg) (List.replicate n rb) (List.replicate n r) =
      Except.ok ⟨r, rg, rb, 0, 0, 0⟩ ∧
    standardDeviation ⟨r, rg, rb, 0, 0, 0⟩ = 0 ∧
    standardDeviationRG ⟨r, rg, rb, 0, 0, 0⟩ = 0 ∧
    standardDeviationRB ⟨r, rg, rb, 0, 0, 0⟩ = 0 := by
  have hne : n ≠ 0 := by omega
  have hcast : (n : ℚ) ≠ 0 := Nat.cast_ne_zero.mpr hne
  have hdiv : ∀ a : ℚ, (n : ℚ) * a / (n : ℚ) = a := fun a =>
    mul_div_cancel_left₀ a hcast
  refine ⟨?_, ?_, ?_, ?_⟩
  · simp only [coinValues, List.length_replicate, List.map_replicate,
      List.sum_replicate, nsmul_eq_mul, hdiv, sub_self, lt_irrefl, if_false,
      if_neg hne]
  · simp [standardDeviation]
  · simp [standardDeviationRG]
  · simp [standardDeviationRB]

/-- Witness for C5 at `n = 2`, row `(radius, ratioRG, ratioRB) = (7, 3, 5)`. -/
theorem coinValues_uniform_rows_witness :
    coinValues (List.replicate 2 (3 : ℚ)) (List.replicate 2 (5 : ℚ))
        (List.replicate 2 (7 : ℚ)) =
      Except.ok ⟨7, 3, 5, 0, 0, 0⟩ ∧
    standardDeviation ⟨7, 3, 5, 0, 0, 0⟩ = 0 ∧
    standardDeviationRG ⟨7, 3, 5, 0, 0, 0⟩ = 0 ∧
    standardDeviationRB ⟨7, 3, 5, 0, 0, 0⟩ = 0 :=
  coinValues_uniform_rows 2 7 3 5 (by decide)

/-- C6: with zero recorded calibration rows the statistics computation fails
with the division-by-zero error on the sample count instead of returning a
`CoinStats` value. -/
theorem coinValues_empty_dataset (rbData radiusData : List ℚ) :
    coinValues [] rbData radiusData = Except.error "ZeroDivisionError" := rfl

/-- C10: whenever `coinValues` returns statistics, the RB and radius means are
their file sums divided by the RG file's row count, not by their own files'
row counts. -/
theorem coinValues_count_from_rg (rgData rbData radiusData : List ℚ)
    (s : CoinStats) (h : coinValues rgData rbData radiusData = Except.ok s) :
    s.rbAvg = rbData.sum / (rgData.length : ℚ) ∧
    s.radiusAvg = radiusData.sum / (rgData.length : ℚ) := by
  simp only [coinValues] at h
  split at h
  · exact absurd h (by simp)
  · split at h
    · exact absurd h (by simp)
    · split at h
      · exact absurd h (by simp)
      · split at h
        · exact absurd h (by simp)
        · cases h
          exact ⟨rfl, rfl⟩

/-- Witness for C10: RG file `[1, 2]` (two rows), RB file `[3]` (one row),
radius file `[0, 0, 6]` (three rows); both foreign means are divided by 2. -/
theorem coinValues_count_from_rg_witness :
    (⟨3, 3 / 2, 3 / 2, 9, 1 / 4, 9 / 4⟩ : CoinStats).rbAvg =
      ([3] : List ℚ).sum / (([1, 2] : List ℚ).length : ℚ) ∧
    (⟨3, 3 / 2, 3 / 2, 9, 1 / 4, 9 / 4⟩ : CoinStats).radiusAvg =
      ([0, 0, 6] : List ℚ).sum / (([1, 2] : List ℚ).length : ℚ) :=
  coinValues_count_from_rg [1, 2] [3] [0, 0, 6] ⟨3, 3 / 2, 3 / 2, 9, 1 / 4, 9 / 4⟩
    (by simp only [coinValues]; norm_num)

/-- The tail of the classification cascade of `CoinCounting.process` reached
once `radius > pennyValues[0]` has failed (lines 327-349): the dime test and
the dime/penny tie-breaks. -/
def classifyBelowPenny (radius ratioRG : ℚ) (pennyValues dimeValues : CoinStats) : Coin :=
  if radius < dimeValues.radiusAvg then .Dime
  else if |dimeValues.radiusAvg - pennyValues.radiusAvg| / pennyValues.radiusAvg < 0.15 then
    if |pennyValues.rgAvg - ratioRG| > |dimeValues.rgAvg - ratioRG| then .Dime else .Penny
  else if radius - dimeValues.radiusAvg > pennyValues.radiusAvg - radius then .Penny
  else .Dime

/-- The tail of the classification cascade of `CoinCounting.process` reached
once `radius > nickelValues[0]` has failed (lines 306-349): the penny test
with the nickel/penny tie-breaks, then the dime tail. -/
def classifyBelowNickel (radius ratioRG : ℚ)
    (pennyValues nickelValues dimeValues : CoinStats) : Coin :=
  if radius > pennyValues.radiusAvg then
    if |nickelValues.radiusAvg - pennyValues.radiusAvg| / pennyValues.radiusAvg < 0.15 then
      if |nickelValues.rgAvg - ratioRG| > |pennyValues.rgAvg - ratioRG| then .Penny else .Nickel
    else if nickelValues.radiusAvg - radius > radius - pennyValues.radiusAvg then .Penny
    else .Nickel
  else classifyBelowPenny radius ratioRG pennyValues dimeValues

/-- The full classification cascade of `CoinCounting.process` (lines 285-349)
for one blob: `radius` is the measured blob radius and `ratioRG` the observed
red/green mean ratio (the only color quantity the cascade reads; the computed
blue/green ratio is never used). -/
def classify (radius ratioRG : ℚ)
    (pennyValues nickelValues dimeValues quarterValues : CoinStats) : Coin :=
  if radius > quarterValues.radiusAvg then .Quarter
  else if radius > nickelValues.radiusAvg then
    if quarterValues.radiusAvg - radius > radius - nickelValues.radiusAvg then .Nickel
    else .Quarter
  else classifyBelowNickel radius ratioRG pennyValues nickelValues dimeValues

/-- C1: a blob whose radius is strictly greater than the quarter's calibrated
mean radius is classified as a Quarter, for every value of the observed color
ratio and of the other denominations' statistics. -/
theorem classify_above_quarter_mean (radius ratioRG : ℚ)
    (p n d q : CoinStats) (h : radius > q.radiusAvg) :
    classify radius ratioRG p n d q = Coin.Quarter := by
  unfold classify
  rw [if_pos h]

/-- Witness for C1: radius 10 against a quarter mean radius of 5. -/
theorem classify_above_quarter_mean_witness :
    classify 10 37 ⟨1, 1, 1, 0, 0, 0⟩ ⟨2, 1, 1, 0, 0, 0⟩ ⟨1, 1, 1, 0, 0, 0⟩
      ⟨5, 1, 1, 0, 0, 0⟩ = Coin.Quarter :=
  classify_above_quarter_mean 10 37 ⟨1, 1, 1, 0, 0, 0⟩ ⟨2, 1, 1, 0, 0, 0⟩
    ⟨1, 1, 1, 0, 0, 0⟩ ⟨5, 1, 1, 0, 0, 0⟩ (by norm_num)

/-- C2 counterexample: the claim quantifies only over
`pennyMean < radius ≤ nickelMean` and the 15% proximity of the nickel and
penny means, but says nothing about the quarter mean.  With
`quarterMean = 101` lying below the radius 105, the first branch of the
cascade fires and the blob is labelled Quarter even though the penny's
ratioRG is strictly closer, where the claim demands Penny. -/
theorem classify_penny_band_counterexample :
    (⟨100, 1, 1, 0, 0, 0⟩ : CoinStats).radiusAvg < 105 ∧
    (105 : ℚ) ≤ (⟨110, 10, 1, 0, 0, 0⟩ : CoinStats).radiusAvg ∧
    |(⟨110, 10, 1, 0, 0, 0⟩ : CoinStats).radiusAvg -
        (⟨100, 1, 1, 0, 0, 0⟩ : CoinStats).radiusAvg| /
      (⟨100, 1, 1, 0, 0, 0⟩ : CoinStats).radiusAvg < 0.15 ∧
    |(⟨100, 1, 1, 0, 0, 0⟩ : CoinStats).rgAvg - 1| <
      |(⟨110, 10, 1, 0, 0, 0⟩ : CoinStats).rgAvg - 1| ∧
    classify 105 1 ⟨100, 1, 1, 0, 0, 0⟩ ⟨110, 10, 1, 0, 0, 0⟩ ⟨50, 1, 1, 0, 0, 0⟩
      ⟨101, 1, 1, 0, 0, 0⟩ = Coin.Quarter ∧
    Coin.Quarter ≠ Coin.Penny := by
  refine ⟨by norm_num, by norm_num, by norm_num, by norm_num, ?_, by decide⟩
  unfold classify
  norm_num

/-- C2 amended: additionally requiring `radius ≤ quarterStats.radiusMean`
(so that the quarter branch of the cascade does not fire first), a blob with
`pennyMean < radius ≤ nickelMean` whose nickel and penny mean radii are
within 15% of the penny mean is classified by ratioRG proximity: Penny when
the penny's ratioRG mean is strictly closer to the observed ratio, Nickel
when the nickel distance is smaller or equal. -/
theorem classify_penny_band_by_ratio (radius ratioRG : ℚ) (p n d q : CoinStats)
    (hq : radius ≤ q.radiusAvg) (hn : radius ≤ n.radiusAvg)
    (hp : p.radiusAvg < radius)
    (h15 : |n.radiusAvg - p.radiusAvg| / p.radiusAvg < 0.15) :
    classify radius ratioRG p n d q =
      if |p.rgAvg - ratioRG| < |n.rgAvg - ratioRG| then Coin.Penny
      else Coin.Nickel := by
  unfold classify classifyBelowNickel
  rw [if_neg (not_lt.mpr hq), if_neg (not_lt.mpr hn), if_pos hp, if_pos h15]

/-- Witness for the amended C2: radius 105, penny mean 100, nickel mean 110,
quarter mean 120, observed ratioRG equal to the penny's mean ratio. -/
theorem classify_penny_band_by_ratio_witness :
    classify 105 1 ⟨100, 1, 1, 0, 0, 0⟩ ⟨110, 10, 1, 0, 0, 0⟩ ⟨50, 1, 1, 0, 0, 0⟩
      ⟨120, 1, 1, 0, 0, 0⟩ =
      if |(⟨100, 1, 1, 0, 0, 0⟩ : CoinStats).rgAvg - 1| <
          |(⟨110, 10, 1, 0, 0, 0⟩ : CoinStats).rgAvg - 1| then Coin.Penny
      else Coin.Nickel :=
  classify_penny_band_by_ratio 105 1 ⟨100, 1, 1, 0, 0, 0⟩ ⟨110, 10, 1, 0, 0, 0⟩
    ⟨50, 1, 1, 0, 0, 0⟩ ⟨120, 1, 1, 0, 0, 0⟩ (by norm_num) (by norm_num)
    (by norm_num) (by norm_num)

/-- C3: the cascade's radius tests are strict, so a radius exactly equal to
the nickel (resp. penny) mean radius does not enter the corresponding `>`
branch but falls through to that branch's else part. -/
theorem classify_boundary_strict (radius ratioRG : ℚ) (p n d q : CoinStats) :
    (radius = n.radiusAvg → ¬ radius > q.radiusAvg →
      classify radius ratioRG p n d q =
        classifyBelowNickel radius ratioRG p n d) ∧
    (radius = p.radiusAvg → ¬ radius > q.radiusAvg → ¬ radius > n.radiusAvg →
      classify radius ratioRG p n d q =
        classifyBelowPenny radius ratioRG p d) := by
  constructor
  · intro hb hq
    unfold classify
    rw [if_neg hq, if_neg (by rw [hb] ; exact lt_irrefl _)]
  · intro hb hq hn
    unfold classify classifyBelowNickel
    rw [if_neg hq, if_neg hn, if_neg (by rw [hb] ; exact lt_irrefl _)]

/-- Witness for C3: radius 5 with nickel and penny mean radii both 5 and a
quarter mean radius of 10. -/
theorem classify_boundary_strict_witness :
    classify 5 1 ⟨5, 1, 1, 0, 0, 0⟩ ⟨5, 2, 1, 0, 0, 0⟩ ⟨3, 1, 1, 0, 0, 0⟩
        ⟨10, 1, 1, 0, 0, 0⟩ =
      classifyBelowNickel 5 1 ⟨5, 1, 1, 0, 0, 0⟩ ⟨5, 2, 1, 0, 0, 0⟩
        ⟨3, 1, 1, 0, 0, 0⟩ ∧
    classify 5 1 ⟨5, 1, 1, 0, 0, 0⟩ ⟨5, 2, 1, 0, 0, 0⟩ ⟨3, 1, 1, 0, 0, 0⟩
        ⟨10, 1, 1, 0, 0, 0⟩ =
      classifyBelowPenny 5 1 ⟨5, 1, 1, 0, 0, 0⟩ ⟨3, 1, 1, 0, 0, 0⟩ :=
  ⟨(classify_boundary_strict 5 1 ⟨5, 1, 1, 0, 0, 0⟩ ⟨5, 2, 1, 0, 0, 0⟩
      ⟨3, 1, 1, 0, 0, 0⟩ ⟨10, 1, 1, 0, 0, 0⟩).1 rfl (by norm_num),
   (classify_boundary_strict 5 1 ⟨5, 1, 1, 0, 0, 0⟩ ⟨5, 2, 1, 0, 0, 0⟩
      ⟨3, 1, 1, 0, 0, 0⟩ ⟨10, 1, 1, 0, 0, 0⟩).2 rfl (by norm_num) (by norm_num)⟩

/-- OpenCV `THRESH_BINARY` with `maxval = 255`: the "light background, dark
object" threshold applied in both `process` functions.  The image is the
flattened list of blurred grayscale pixels; `thresh` is the Otsu-selected
level (computed inside `cv2.threshold`, taken here as a parameter). -/
def threshBinary (thresh : ℕ) (img : List ℕ) : List ℕ :=
  img.map fun p => if thresh < p then 255 else 0

/-- OpenCV `THRESH_BINARY_INV` with `maxval = 255`: the inverted-polarity
(dark background) threshold. -/
def threshBinaryInv (thresh : ℕ) (img : List ℕ) : List ℕ :=
  img.map fun p => if thresh < p then 0 else 255

/-- OpenCV `cv2.countNonZero`. -/
def countNonZero (img : List ℕ) : ℕ :=
  (img.filter fun p => p != 0).length

/-- The adaptive polarity choice of `CoinCounting.process` (lines 221-228) and
`CoinCalibration.process` (lines 269-276): threshold with the light-background
polarity, count white pixels, and rethreshold with the inverted polarity when
the black pixels outnumber them (`height*width` is the pixel count of the
flattened image). -/
def chooseThreshold (thresh : ℕ) (img : List ℕ) : List ℕ :=
  let threshImage := threshBinary thresh img
  let whitePixels := countNonZero threshImage
  let blackPixels := img.length - whitePixels
  if blackPixels > whitePixels then threshBinaryInv thresh img else threshImage

/-- The number of pixels the light-background threshold classifies as
foreground (dark object), i.e. the pixels mapped to `0` by `threshBinary`. -/
def foregroundCount (thresh : ℕ) (img : List ℕ) : ℕ :=
  (img.filter fun p => decide (p ≤ thresh)).length

lemma countNonZero_threshBinary (thresh : ℕ) (img : List ℕ) :
    countNonZero (threshBinary thresh img) =
      (img.filter fun p => decide (thresh < p)).length := by
  induction img with
  | nil => rfl
  | cons p l ih =>
    by_cases h : thresh < p <;>
      simp [threshBinary, countNonZero, List.filter_cons, h] at ih ⊢ <;>
      omega

lemma foregroundCount_add_white (thresh : ℕ) (img : List ℕ) :
    foregroundCount thresh img +
      (img.filter fun p => decide (thresh < p)).length = img.length := by
  induction img with
  | nil => rfl
  | cons p l ih =>
    by_cases h : thresh < p
    · have h2 : ¬ p ≤ thresh := not_le.mpr h
      simp [foregroundCount, List.filter_cons, h, h2] at ih ⊢
      omega
    · have h2 : p ≤ thresh := not_lt.mp h
      simp [foregroundCount, List.filter_cons, h, h2] at ih ⊢
      omega

/-- C4: the segmenter keeps the inverted-polarity threshold exactly when more
than half of the image's pixels are classified as foreground by the initial
light-background threshold, and keeps the initial threshold result
otherwise. -/
theorem chooseThreshold_polarity (thresh : ℕ) (img : List ℕ) :
    chooseThreshold thresh img =
      if img.length < 2 * foregroundCount thresh img then threshBinaryInv thresh img
      else threshBinary thresh img := by
  have hsum := foregroundCount_add_white thresh img
  simp only [chooseThreshold, countNonZero_threshBinary]
  have hiff : ((img.filter fun p => decide (thresh < p)).length <
      img.length - (img.filter fun p => decide (thresh < p)).length) ↔
      (img.length < 2 * foregroundCount thresh img) := by omega
  rw [if_congr hiff rfl rfl]

/-- The observed color fingerprint of one blob: the red/green ratio and the
mode-specific second ratio (blue/green in counting mode, red/blue in
calibration mode). -/
structure ColorSample where
  ratioRG : ℚ
  ratioSecond : ℚ
deriving DecidableEq

/-- The ratio computation of counting mode (`CoinCounting.process` lines
276-281): `ratioRG = red/green` and then `ratioRB = blue/green`, from the
channel means of the sample circle.  A zero green mean raises
`ZeroDivisionError` at the first ratio. -/
def countingRatios (red green blue : ℚ) : Except String ColorSample :=
  if green = 0 then .error "ZeroDivisionError"
  else .ok ⟨red / green, blue / green⟩

/-- The ratio computation of calibration mode (`CoinCalibration.detectCoinType`
lines 213-218): `ratioRG = red/green` and then `ratioRB = red/blue`.  A zero
green mean raises `ZeroDivisionError` at the first ratio, a zero blue mean at
the second. -/
def calibrationRatios (red green blue : ℚ) : Except String ColorSample :=
  if green = 0 then .error "ZeroDivisionError"
  else if blue = 0 then .error "ZeroDivisionError"
  else .ok ⟨red / green, red / blue⟩

/-- C7: whenever a denominator channel mean is zero — the green mean in either
mode, or the blue mean in calibration mode — the color sampler fails with the
division-by-zero error and never returns a `ColorSample`. -/
theorem ratios_zero_denominator (red green blue : ℚ) :
    (green = 0 → countingRatios red green blue = Except.error "ZeroDivisionError") ∧
    (green = 0 → calibrationRatios red green blue = Except.error "ZeroDivisionError") ∧
    (blue = 0 → calibrationRatios red green blue = Except.error "ZeroDivisionError") ∧
    (∀ s : ColorSample, green = 0 → countingRatios red green blue ≠ Except.ok s) ∧
    (∀ s : ColorSample, green = 0 ∨ blue = 0 →
      calibrationRatios red green blue ≠ Except.ok s) := by
  refine ⟨fun hg => ?_, fun hg => ?_, fun hb => ?_, fun s hg => ?_, fun s hgb => ?_⟩
  · simp [countingRatios, hg]
  · simp [calibrationRatios, hg]
  · by_cases hg : green = 0 <;> simp [calibrationRatios, hg, hb]
  · simp [countingRatios, hg]
  · rcases hgb with hg | hb
    · simp [calibrationRatios, hg]
    · by_cases hg : green = 0 <;> simp [calibrationRatios, hg, hb]

/-- Witness for C7 at channel means `(red, green, blue) = (1, 0, 0)`. -/
theorem ratios_zero_denominator_witness :
    countingRatios 1 0 0 = Except.error "ZeroDivisionError" ∧
    calibrationRatios 1 0 0 = Except.error "ZeroDivisionError" ∧
    countingRatios 1 0 0 ≠ Except.ok ⟨1, 1⟩ ∧
    calibrationRatios 1 0 0 ≠ Except.ok ⟨1, 1⟩ := by
  obtain ⟨h1, h2, h3, h4, h5⟩ := ratios_zero_denominator 1 0 0
  exact ⟨h1 rfl, h2 rfl, h4 ⟨1, 1⟩ rfl, h5 ⟨1, 1⟩ (Or.inl rfl)⟩

/-- The per-frame counters `pennyNum`, `nickelNum`, `dimeNum`, `quarterNum`
of `CoinCounting.process` (lines 252-256). -/
structure Tally where
  pennyNum : ℕ
  nickelNum : ℕ
  dimeNum : ℕ
  quarterNum : ℕ
deriving DecidableEq

/-- One loop iteration's effect on the counters: the `+= 1` on the counter of
the classified denomination. -/
def tallyStep (t : Tally) (c : Coin) : Tally :=
  match c with
  | .Penny => { t with pennyNum := t.pennyNum + 1 }
  | .Nickel => { t with nickelNum := t.nickelNum + 1 }
  | .Dime => { t with dimeNum := t.dimeNum + 1 }
  | .Quarter => { t with quarterNum := t.quarterNum + 1 }

/-- The counter accumulation over one frame's classification results, starting
from the zero-initialised counters. -/
def countCoins (results : List Coin) : Tally :=
  results.foldl tallyStep ⟨0, 0, 0, 0⟩

/-- The total value computed at line 352:
`pennyNum*0.01 + dimeNum*0.1 + nickelNum*0.05 + quarterNum*0.25`. -/
def totalVal (t : Tally) : ℚ :=
  (t.pennyNum : ℚ) * 0.01 + (t.dimeNum : ℚ) * 0.1 + (t.nickelNum : ℚ) * 0.05 +
    (t.quarterNum : ℚ) * 0.25

lemma countCoins_foldl (l : List Coin) (t : Tally) :
    (List.foldl tallyStep t l).pennyNum = t.pennyNum + l.count Coin.Penny ∧
    (List.foldl tallyStep t l).nickelNum = t.nickelNum + l.count Coin.Nickel ∧
    (List.foldl tallyStep t l).dimeNum = t.dimeNum + l.count Coin.Dime ∧
    (List.foldl tallyStep t l).quarterNum = t.quarterNum + l.count Coin.Quarter := by
  induction l generalizing t with
  | nil => simp [List.count]
  | cons c l ih =>
    obtain ⟨h1, h2, h3, h4⟩ := ih (tallyStep t c)
    simp only [List.foldl_cons]
    rw [h1, h2, h3, h4]
    cases c <;>
      simp [List.count_cons, tallyStep, beq_iff_eq] <;>
      omega

/-- C8: each counter equals the number of classification results of its
denomination, the total value is
`pennies*0.01 + nickels*0.05 + dimes*0.10 + quarters*0.25`, and the empty
result sequence yields four zero counters and a zero total. -/
theorem tally_correct (results : List Coin) :
    (countCoins results).pennyNum = results.count Coin.Penny ∧
    (countCoins results).nickelNum = results.count Coin.Nickel ∧
    (countCoins results).dimeNum = results.count Coin.Dime ∧
    (countCoins results).quarterNum = results.count Coin.Quarter ∧
    totalVal (countCoins results) =
      (results.count Coin.Penny : ℚ) * 0.01 +
        (results.count Coin.Nickel : ℚ) * 0.05 +
        (results.count Coin.Dime : ℚ) * 0.1 +
        (results.count Coin.Quarter : ℚ) * 0.25 ∧
    countCoins [] = ⟨0, 0, 0, 0⟩ ∧
    totalVal (countCoins []) = 0 := by
  obtain ⟨h1, h2, h3, h4⟩ := countCoins_foldl results ⟨0, 0, 0, 0⟩
  simp only [countCoins] at h1 h2 h3 h4 ⊢
  simp only [Nat.zero_add] at h1 h2 h3 h4
  refine ⟨h1, h2, h3, h4, ?_, rfl, by norm_num [totalVal]⟩
  simp only [totalVal, h1, h2, h3, h4]
  ring

/-- One row written by `CoinCalibration.writeToFile`: the coin's denomination
(selecting the three files) and the appended `(ratioRG, ratioRB, radius)`
values. -/
structure CalRecord where
  coin : Coin
  ratioRG : ℚ
  ratioRB : ℚ
  radius : ℚ
deriving DecidableEq

/-- `CoinCalibration.printCoinType` (lines 131-150): four sequential `if`
statements with fallthrough; the marker index 0..3 maps to Dime, Penny,
Nickel, Quarter, and any other index leaves `coin` unassigned (a `NameError`,
modelled as `none`). -/
def printCoinType (type : ℕ) : Option Coin :=
  let coin : Option Coin := none
  let coin := if type = 0 then some Coin.Dime else coin
  let coin := if type = 1 then some Coin.Penny else coin
  let coin := if type = 2 then some Coin.Nickel else coin
  let coin := if type = 3 then some Coin.Quarter else coin
  coin

/-- The proximity test of `CoinCalibration.detectCoinType` (lines 192-196):
the horizontal and vertical distances from the blob center to the marker,
each as a fraction of the marker's own coordinate, are both below 0.3. -/
def markerHit (cx cy targetXVal targetYVal : ℚ) : Prop :=
  |cx - targetXVal| / targetXVal < 0.3 ∧ |cy - targetYVal| / targetYVal < 0.3

instance markerHitDecidable (cx cy targetXVal targetYVal : ℚ) :
    Decidable (markerHit cx cy targetXVal targetYVal) := by
  unfold markerHit
  infer_instance

/-- The body executed by `CoinCalibration.detectCoinType` for the first
satisfied marker `i`: look up the coin name, compute the calibration-mode
color ratios, and append one row to that coin's files. -/
def recordFor (i : ℕ) (red green blue radius : ℚ) : Except String (List CalRecord) :=
  match printCoinType i with
  | none => .error "NameError"
  | some coin =>
    match calibrationRatios red green blue with
    | .error e => .error e
    | .ok s => .ok [⟨coin, s.ratioRG, s.ratioSecond, radius⟩]

/-- `CoinCalibration.detectCoinType` (lines 177-250): the four-iteration loop
over the markers, left to right, with `targetXVal` advanced by `xDelta` after
each miss; the first satisfied marker writes one record and returns, and a
blob satisfying no marker writes nothing.  The value is the list of records
written. -/
def detectCoinType (cx cy targetXVal targetYVal xDelta red green blue radius : ℚ) :
    Except String (List CalRecord) :=
  if markerHit cx cy targetXVal targetYVal then
    recordFor 0 red green blue radius
  else if markerHit cx cy (targetXVal + xDelta) targetYVal then
    recordFor 1 red green blue radius
  else if markerHit cx cy (targetXVal + 2 * xDelta) targetYVal then
    recordFor 2 red green blue radius
  else if markerHit cx cy (targetXVal + 3 * xDelta) targetYVal then
    recordFor 3 red green blue radius
  else .ok []

/-- The denomination of marker `i` in the left-to-right layout
Dime, Penny, Nickel, Quarter. -/
def markerCoin (i : ℕ) : Coin :=
  if i = 0 then .Dime else if i = 1 then .Penny else if i = 2 then .Nickel
  else .Quarter

/-- C9: at the configuration used by `CoinCalibration.process` (first marker
at `(100, 200)`, spacing 140), the marker loop tests the four markers left to
right: if no marker's relative-distance test succeeds, no record is written;
otherwise exactly one record is written, for the denomination of the first
(leftmost) satisfying marker. -/
theorem marker_first_match (cx cy red green blue radius : ℚ)
    (hg : green ≠ 0) (hb : blue ≠ 0) :
    ((∀ i : ℕ, i < 4 → ¬ markerHit cx cy (100 + i * 140) 200) →
      detectCoinType cx cy 100 200 140 red green blue radius = Except.ok []) ∧
    (∀ i : ℕ, i < 4 → markerHit cx cy (100 + i * 140) 200 →
      (∀ j : ℕ, j < i → ¬ markerHit cx cy (100 + j * 140) 200) →
      detectCoinType cx cy 100 200 140 red green blue radius =
        Except.ok [⟨markerCoin i, red / green, red / blue, radius⟩]) := by
  constructor
  · intro h
    have h0 := h 0 (by norm_num)
    have h1 := h 1 (by norm_num)
    have h2 := h 2 (by norm_num)
    have h3 := h 3 (by norm_num)
    norm_num at h0 h1 h2 h3
    unfold detectCoinType
    norm_num
    rw [if_neg h0, if_neg h1, if_neg h2, if_neg h3]
  · intro i hi4 hi hj
    interval_cases i
    · norm_num at hi
      unfold detectCoinType
      rw [if_pos hi]
      simp [recordFor, printCoinType, calibrationRatios, markerCoin, hg, hb]
    · have h0 := hj 0 (by norm_num)
      norm_num at hi h0
      unfold detectCoinType
      norm_num
      rw [if_neg h0, if_pos hi]
      simp [recordFor, printCoinType, calibrationRatios, markerCoin, hg, hb]
    · have h0 := hj 0 (by norm_num)
      have h1 := hj 1 (by norm_num)
      norm_num at hi h0 h1
      unfold detectCoinType
      norm_num
      rw [if_neg h0, if_neg h1, if_pos hi]
      simp [recordFor, printCoinType, calibrationRatios, markerCoin, hg, hb]
    · have h0 := hj 0 (by norm_num)
      have h1 := hj 1 (by norm_num)
      have h2 := hj 2 (by norm_num)
      norm_num at hi h0 h1 h2
      unfold detectCoinType
      norm_num
      rw [if_neg h0, if_neg h1, if_neg h2, if_pos hi]
      simp [recordFor, printCoinType, calibrationRatios, markerCoin, hg, hb]

/-- Witness for C9: a blob centered exactly on the second marker `(240, 200)`
misses marker 0 and writes one Penny record with ratios `6/2` and `6/4`. -/
theorem marker_first_match_witness :
    detectCoinType 240 200 100 200 140 6 2 4 11 =
      Except.ok [⟨markerCoin 1, 6 / 2, 6 / 4, 11⟩] :=
  (marker_first_match 240 200 6 2 4 11 (by norm_num) (by norm_num)).2 1
    (by norm_num) (by norm_num [markerHit])
    (by intro j hj; interval_cases j; norm_num [markerHit])

end CoinCounter
